import Mathlib

/-
Verification of the BIRDMAn reshaping/transform core.

The development shallowly embeds:
  * the Coordinate Transformer (`convert_beta_coordinates`),
  * the Inference Assembler (`single_fit_to_inference`,
    `multiple_fits_to_inference`),
  * the fitted-model exports (`NegativeBinomial.to_xarray`,
    `Multinomial.to_xarray` from birdman/default_models.py), and
  * the plotting guards (`plot_parameter_estimates`,
    `plot_posterior_predictive_checks` from birdman/visualization.py).

Numeric array entries are rationals; arrays are flat row-major lists of
rationals paired with an explicit shape, mirroring numpy ndarrays.
-/

set_option maxHeartbeats 1000000

/-- Association-list lookup by string key (first match wins), the embedding
of Python dict access for the spec mappings. -/
def lookupV {α : Type} : List (String × α) → String → Option α
  | [], _ => none
  | (k, v) :: rest, key => if k = key then some v else lookupV rest key

/-- Lookup with a default value, the embedding of `dict.get(key, default)`. -/
def lookupD {α : Type} (l : List (String × α)) (key : String) (dflt : α) : α :=
  (lookupV l key).getD dflt

/-- Split a flat row-major list into consecutive chunks of size `sz`
(the view of an array as blocks along its leading axes). -/
def chunks (sz : Nat) (l : List ℚ) : List (List ℚ) :=
  if sz = 0 then [] else (List.range (l.length / sz)).map (fun i => ((l.drop (i * sz)).take sz))

/-- Modelled from the spec: the unconstrained-basis vector extended by the
reconstructed reference coordinate.  birdman/util.py is not part of the
sources; spec section 4.1 says the reference coordinate's entry is
reconstructed as the negative of the sum of all retained coordinates. -/
def alrY (m : Nat) (x : Fin m → ℚ) : Fin (m + 1) → ℚ :=
  fun i => if h : (i : ℕ) < m then x ⟨i, h⟩ else -(∑ j, x j)

/-- Modelled from the spec: one additive-log-ratio vector converted to the
sum-to-zero basis — reference coordinate reconstructed, then all entries
re-centered (spec section 4.1). -/
def alrToClr (m : Nat) (x : Fin m → ℚ) : Fin (m + 1) → ℚ :=
  fun i => alrY m x i - (∑ i2, alrY m x i2) / (m + 1)

/-- Modelled from the spec: `convert_beta_coordinates` (birdman/util.py is
not in the sources).  Contract from spec section 4.1:
`Array[covariate-1, feature, draw] -> Array[covariate, feature, draw]`,
applied independently per feature and per draw. -/
def convert_beta_coordinates {m f d : Nat} (x : Fin m → Fin f → Fin d → ℚ) :
    Fin (m + 1) → Fin f → Fin d → ℚ :=
  fun i j k => alrToClr m (fun i2 => x i2 j k) i

theorem alrY_castSucc (m : Nat) (x : Fin m → ℚ) (i : Fin m) :
    alrY m x (Fin.castSucc i) = x i := by
  have h : ((Fin.castSucc i : Fin (m + 1)) : ℕ) < m := by simp
  simp [alrY, h]

theorem alrY_last (m : Nat) (x : Fin m → ℚ) :
    alrY m x (Fin.last m) = -(∑ j, x j) := by
  simp [alrY]

theorem alrY_sum (m : Nat) (x : Fin m → ℚ) : (∑ i, alrY m x i) = 0 := by
  rw [Fin.sum_univ_castSucc, alrY_last,
    Finset.sum_congr rfl (fun i _ => alrY_castSucc m x i)]
  simp

theorem alrToClr_eq_alrY (m : Nat) (x : Fin m → ℚ) (i : Fin (m + 1)) :
    alrToClr m x i = alrY m x i := by
  simp [alrToClr, alrY_sum]

theorem alrToClr_sum (m : Nat) (x : Fin m → ℚ) : (∑ i, alrToClr m x i) = 0 := by
  rw [Finset.sum_congr rfl (fun i _ => alrToClr_eq_alrY m x i)]
  exact alrY_sum m x

theorem alrToClr_castSucc (m : Nat) (x : Fin m → ℚ) (i : Fin m) :
    alrToClr m x (Fin.castSucc i) = x i := by
  rw [alrToClr_eq_alrY]
  exact alrY_castSucc m x i

/-- C1: for every valid input of shape (n-1, f, d) with n ≥ 2 (here n = m+1,
so the hypothesis is 1 ≤ m), `convert_beta_coordinates` returns an array of
shape (n, f, d) — expressed by the index types — such that every
(feature, draw) slice sums to zero and the pairwise differences between the
first n-1 output coordinates equal those of the input; the transform acts
independently per feature and per draw slice. -/
theorem convert_beta_coordinates_spec {m f d : Nat} (_hm : 1 ≤ m)
    (x : Fin m → Fin f → Fin d → ℚ) (j : Fin f) (k : Fin d) :
    (∑ i, convert_beta_coordinates x i j k) = 0 ∧
    (∀ i1 i2 : Fin m,
      convert_beta_coordinates x (Fin.castSucc i1) j k -
        convert_beta_coordinates x (Fin.castSucc i2) j k =
          x i1 j k - x i2 j k) := by
  constructor
  · exact alrToClr_sum m (fun i2 => x i2 j k)
  · intro i1 i2
    unfold convert_beta_coordinates
    rw [alrToClr_castSucc, alrToClr_castSucc]

/-- C1 witness: concrete instance with n = 2, one feature, one draw. -/
theorem convert_beta_coordinates_spec_witness :
    (∑ i : Fin 2,
      convert_beta_coordinates (fun (_ : Fin 1) (_ : Fin 1) (_ : Fin 1) => (3 : ℚ)) i 0 0) = 0 :=
  (@convert_beta_coordinates_spec 1 1 1 (by decide) (fun _ _ _ => (3 : ℚ)) 0 0).1

/-
The Inference Assembler.  birdman/model_util.py is not part of the sources
(only its tests in tests/test_model_util.py and its spec are), so the
definitions below are modelled from spec sections 3, 4.2 and 7, with error
messages pinned by the tests where the tests assert them.
-/

/-- A numeric array: explicit shape plus flat row-major data, the embedding
of a numpy ndarray. -/
structure RawArray where
  shape : List Nat
  data : List ℚ
deriving DecidableEq

/-- Modelled from the spec: a RawDrawBundle (spec section 3) — one completed
sampler run, holding for each parameter name a flat array whose leading axis
mixes chain and draw, plus the declared chain count. -/
structure Fit where
  chains : Nat
  vars : List (String × RawArray)
deriving DecidableEq

/-- Modelled from the spec: the error taxonomy surfaced to the caller
(spec sections 6 and 7): ValueError for semantic misconfiguration and
ShapeError for axis/coordinate mismatch. -/
inductive AsmError where
  | shapeError (msg : String)
  | valueError (msg : String)
deriving DecidableEq

/-- A labeled array: dimension names, shape, per-dimension coordinate
labels, and flat data — the embedding of an xarray DataArray. -/
structure DAr where
  dims : List String
  shape : List Nat
  coords : List (String × List String)
  data : List ℚ
deriving DecidableEq

/-- Modelled from the spec: the InferenceArtifact (spec section 3) — named
groups of labeled arrays, never mutated after assembly. -/
structure InferenceArtifact where
  posterior : List (String × DAr)
  posterior_predictive : List (String × DAr)
  log_likelihood : List (String × DAr)
  observed_data : List (String × DAr)
deriving DecidableEq

/-- Error-propagating map over a list (the embedding of a Python loop that
raises on the first failing element). -/
def exMapM {α β : Type} (g : α → Except AsmError β) : List α → Except AsmError (List β)
  | [] => .ok []
  | a :: as =>
    match g a with
    | .error e => .error e
    | .ok b =>
      match exMapM g as with
      | .error e => .error e
      | .ok bs => .ok (b :: bs)

/-- Modelled from the spec: reshape the flat (chain x draw) leading axis
into separate chain and draw axes using the known chain count, splitting
evenly; fails with a ShapeError if the draw count is not evenly divisible
by the chain count (spec section 4.2). -/
def splitChains (c : Nat) (p : String) (a : RawArray) : Except AsmError RawArray :=
  match a.shape with
  | [] => .error (.shapeError (p ++ ": no draw axis"))
  | n :: rest =>
    if c ≠ 0 ∧ n % c = 0 then .ok ⟨c :: (n / c) :: rest, a.data⟩
    else .error (.shapeError (p ++ ": draws not evenly divisible by chains"))

/-- One additive-log-ratio block in flat row-major form: `k` rows of `r`
columns become `k+1` rows, each column converted by the sum-to-zero basis
change (the flat-data form of `alrToClr`). -/
def alrBlock (r k : Nat) (blk : List ℚ) : List ℚ :=
  ((List.range (k + 1)).map (fun i =>
    (List.range r).map (fun j =>
      let col := (List.range k).map (fun i2 => blk.getD (i2 * r + j) 0)
      let s := col.sum
      let ys := col ++ [-s]
      let mean := ys.sum / (ys.length : ℚ)
      (ys.map (fun y => y - mean)).getD i 0))).flatten

/-- Modelled from the spec: the Coordinate Transformer applied along the
first declared dimension of a reshaped (chain, draw, dims...) array,
element-wise over all remaining axes (spec sections 4.1 and 4.2). -/
def tensorALR (a : RawArray) : Except AsmError RawArray :=
  match a.shape with
  | c :: d :: k :: rest =>
    .ok ⟨c :: d :: (k + 1) :: rest,
      ((chunks (k * rest.prod) a.data).map (alrBlock rest.prod k)).flatten⟩
  | _ => .error (.shapeError ("basis conversion requires a declared dimension"))

/-- Modelled from the spec: fetch one parameter's raw draws from a bundle,
reshape the chain/draw axes, and basis-convert it when listed in
`alr_params` (spec section 4.2, serial assembly). -/
def serialData (fit : Fit) (alr_params : List String) (p : String) :
    Except AsmError RawArray :=
  match lookupV fit.vars p with
  | none => .error (.valueError ("parameter " ++ p ++ " not found in fit"))
  | some a =>
    match splitChains fit.chains p a with
    | .error e => .error e
    | .ok r => if p ∈ alr_params then tensorALR r else .ok r

/-- Modelled from the spec: label one posterior parameter for the serial
path — dims are (chain, draw, declared dims in dimension-spec order) and
each declared dim gets its coordinate-spec labels (spec section 4.2). -/
def buildSerial (fit : Fit) (coords dims : List (String × List String))
    (alr_params : List String) (p : String) : Except AsmError (String × DAr) :=
  match serialData fit alr_params p with
  | .error e => .error e
  | .ok ra =>
    .ok (p, ⟨"chain" :: "draw" :: lookupD dims p [], ra.shape,
      (lookupD dims p []).map (fun s => (s, lookupD coords s [])), ra.data⟩)

/-- Modelled from the spec: label a posterior-predictive or log-likelihood
variable for the serial path, indexed by observation/sample and using
`sample_names` as its sample-dimension coordinate (spec section 4.2). -/
def buildSample (fit : Fit) (sample_names : List String) (name : String) :
    Except AsmError (String × DAr) :=
  match serialData fit [] name with
  | .error e => .error e
  | .ok ra =>
    .ok (name, ⟨["chain", "draw", "sample"], ra.shape, [("sample", sample_names)], ra.data⟩)

/-- An optional group: empty when no variable name is given, otherwise the
single named variable built by `b` (spec section 4.2). -/
def optGroup (b : String → Except AsmError (String × DAr)) :
    Option String → Except AsmError (List (String × DAr))
  | none => .ok []
  | some name =>
    match b name with
    | .error e => .error e
    | .ok x => .ok [x]

/-- Modelled from the spec: `single_fit_to_inference` (spec section 4.2,
serial assembly) — reshape, optionally basis-convert, and label every
listed parameter, then the optional posterior-predictive and
log-likelihood groups. -/
def single_fit_to_inference (fit : Fit) (coords dims : List (String × List String))
    (params alr_params : List String) (posterior_predictive log_likelihood : Option String)
    (sample_names : List String) : Except AsmError InferenceArtifact :=
  match exMapM (buildSerial fit coords dims alr_params) params with
  | .error e => .error e
  | .ok post =>
    match optGroup (buildSample fit sample_names) posterior_predictive with
    | .error e => .error e
    | .ok ppg =>
      match optGroup (buildSample fit sample_names) log_likelihood with
      | .error e => .error e
      | .ok llg => .ok ⟨post, ppg, llg, []⟩

/-- Leading-axis length of a parameter's raw array in a bundle (0 when the
parameter is absent), used for the cross-bundle draw-count agreement check. -/
def leadLen (fit : Fit) (p : String) : Nat :=
  ((lookupV fit.vars p).map (fun a => a.shape.headD 0)).getD 0

/-- Shapes agree on every axis other than axis `j` (the concatenation
compatibility check). -/
def offAxisEq (j : Nat) (s t : List Nat) : Bool :=
  s.length == t.length &&
    (List.range s.length).all (fun i => i == j || s.getD i 0 == t.getD i 0)

/-- Modelled from the spec: stack arrays along axis `j`, the embedding of
per-feature concatenation of row-major arrays (spec section 4.2). -/
def concatAxis (j : Nat) : List RawArray → Except AsmError RawArray
  | [] => .error (.shapeError ("nothing to concatenate"))
  | a0 :: rest =>
    if (a0 :: rest).all (fun a => offAxisEq j a.shape a0.shape) then
      .ok ⟨a0.shape.set j (((a0 :: rest).map (fun a => a.shape.getD j 0)).sum),
        ((List.range ((a0.shape.take j).prod)).map (fun o =>
          ((a0 :: rest).map (fun a =>
            (chunks ((a.shape.drop j).prod) a.data).getD o [])).flatten)).flatten⟩
    else .error (.shapeError ("incompatible shapes for concatenation"))

/-- Modelled from the spec: for one parameter, reshape each per-feature
bundle as in serial assembly (over a singleton feature) and stack the
results along the concatenation dimension's axis (spec section 4.2). -/
def stackParam (fits : List Fit) (pdims : List String) (concatenation_name : String)
    (p : String) : Except AsmError RawArray :=
  match exMapM (fun fit => serialData fit [] p) fits with
  | .error e => .error e
  | .ok arrs => concatAxis (2 + pdims.indexOf concatenation_name) arrs

/-- Modelled from the spec: label one posterior parameter for the parallel
path; the concatenation dimension's coordinate labels are `feature_names`
in the given order (spec section 4.2). -/
def buildParallel (fits : List Fit) (coords dims : List (String × List String))
    (concatenation_name : String) (feature_names : List String) (p : String) :
    Except AsmError (String × DAr) :=
  match stackParam fits (lookupD dims p []) concatenation_name p with
  | .error e => .error e
  | .ok ra =>
    .ok (p, ⟨"chain" :: "draw" :: lookupD dims p [], ra.shape,
      (lookupD dims p []).map (fun s =>
        (s, if s = concatenation_name then feature_names else lookupD coords s [])),
      ra.data⟩)

/-- Modelled from the spec: label a posterior-predictive or log-likelihood
variable for the parallel path — indexed by sample, then stacked along the
concatenation dimension with `feature_names` as its labels. -/
def buildParallelSample (fits : List Fit) (concatenation_name : String)
    (feature_names sample_names : List String) (name : String) :
    Except AsmError (String × DAr) :=
  match stackParam fits ["sample", concatenation_name] concatenation_name name with
  | .error e => .error e
  | .ok ra =>
    .ok (name, ⟨"chain" :: "draw" :: ["sample", concatenation_name], ra.shape,
      (["sample", concatenation_name]).map (fun s =>
        (s, if s = concatenation_name then feature_names
            else lookupD [("sample", sample_names)] s [])),
      ra.data⟩)

/-- Modelled from the spec: `multiple_fits_to_inference` (spec section 4.2,
parallel assembly).  The concatenation dimension must appear among every
listed parameter's declared dims, checked first at call entry — the
ValueError message is pinned by tests/test_model_util.py
(test_parallel_to_inference_wrong_concat); all bundles must agree on chain
and draw counts (ShapeError otherwise); then every parameter is stacked
along the concatenation dimension in feature-name order. -/
def multiple_fits_to_inference (fits : List Fit) (params : List String)
    (coords dims : List (String × List String)) (concatenation_name : String)
    (feature_names : List String) (posterior_predictive log_likelihood : Option String)
    (sample_names : List String) : Except AsmError InferenceArtifact :=
  if ∀ p ∈ params, concatenation_name ∈ lookupD dims p [] then
    match fits with
    | [] => .error (.shapeError ("no fits to concatenate"))
    | f0 :: _ =>
      if ∀ fit ∈ fits, fit.chains = f0.chains ∧ ∀ p ∈ params, leadLen fit p = leadLen f0 p then
        match exMapM (buildParallel fits coords dims concatenation_name feature_names) params with
        | .error e => .error e
        | .ok post =>
          match optGroup (buildParallelSample fits concatenation_name feature_names sample_names)
              posterior_predictive with
          | .error e => .error e
          | .ok ppg =>
            match optGroup (buildParallelSample fits concatenation_name feature_names sample_names)
                log_likelihood with
            | .error e => .error e
            | .ok llg => .ok ⟨post, ppg, llg, []⟩
      else .error (.shapeError ("all fits must share chain and draw counts"))
  else .error (.valueError ("concatenation_name must match dimensions in dims"))

/-
Fitted-model exports, embedded from birdman/default_models.py (in the
sources).
-/

/-- A coordinate label of an xarray Dataset: either a string label or a
numeric index (from `np.arange`). -/
inductive CoordVal where
  | s (v : String)
  | n (v : Nat)
deriving DecidableEq

/-- An xarray Dataset: named data variables (dimension names plus flat
data) and named coordinate arrays. -/
structure XDataset where
  data_vars : List (String × (List String × List ℚ))
  coords : List (String × List CoordVal)
deriving DecidableEq

/-- The flat-data form of `convert_beta_coordinates`: `ncov1` covariate rows
of `fd` (feature x draw) columns become `ncov1 + 1` rows in the sum-to-zero
basis. -/
def convert_beta_list (ncov1 fd : Nat) (data : List ℚ) : List ℚ :=
  alrBlock fd ncov1 data

/-- The fitted state of a NegativeBinomial model: the raw `beta` draws in
the reduced (covariate-1, feature, draw) basis and the `phi` draws, with
their axis lengths. -/
structure NBFit where
  ncov1 : Nat
  nfeat : Nat
  ndraw : Nat
  beta : List ℚ
  phi : List ℚ
deriving DecidableEq

/-- The NegativeBinomial model state used by `to_xarray`
(birdman/default_models.py): optional fit, design-matrix columns, feature
ids, iteration and chain counts. -/
structure NegativeBinomial where
  fit : Option NBFit
  dmat_columns : List String
  feature_ids : List String
  num_iter : Nat
  chains : Nat
deriving DecidableEq

/-- Embedded from birdman/default_models.py, NegativeBinomial.to_xarray
(lines 75-92): raises ValueError "Model has not been fit!" when the fit is
missing; otherwise converts beta to the sum-to-zero basis and returns a
Dataset with dims (covariate, feature, draw) for beta, (feature, draw) for
phi, and draw coordinate np.arange(num_iter*chains). -/
def NegativeBinomial.to_xarray (m : NegativeBinomial) : Except String XDataset :=
  match m.fit with
  | none => .error ("Model has not been fit!")
  | some f =>
    .ok ⟨[("beta", (["covariate", "feature", "draw"],
            convert_beta_list f.ncov1 (f.nfeat * f.ndraw) f.beta)),
          ("phi", (["feature", "draw"], f.phi))],
         [("covariate", m.dmat_columns.map CoordVal.s),
          ("feature", m.feature_ids.map CoordVal.s),
          ("draw", (List.range (m.num_iter * m.chains)).map CoordVal.n)]⟩

/-- The fitted state of a Multinomial model. -/
structure MNFit where
  ncov1 : Nat
  nfeat : Nat
  ndraw : Nat
  beta : List ℚ
deriving DecidableEq

/-- The Multinomial model state used by `to_xarray`
(birdman/default_models.py). -/
structure Multinomial where
  fit : Option MNFit
  dmat_columns : List String
  feature_ids : List String
  num_iter : Nat
  chains : Nat
deriving DecidableEq

/-- Embedded from birdman/default_models.py, Multinomial.to_xarray (lines
137-153): raises ValueError "Model has not been fit!" when the fit is
missing; otherwise returns a Dataset with beta in the sum-to-zero basis and
coordinate keys "covariates", "features", "draws" (plural, as in the
source). -/
def Multinomial.to_xarray (m : Multinomial) : Except String XDataset :=
  match m.fit with
  | none => .error ("Model has not been fit!")
  | some f =>
    .ok ⟨[("beta", (["covariate", "feature", "draw"],
            convert_beta_list f.ncov1 (f.nfeat * f.ndraw) f.beta))],
         [("covariates", m.dmat_columns.map CoordVal.s),
          ("features", m.feature_ids.map CoordVal.s),
          ("draws", (List.range (m.num_iter * m.chains)).map CoordVal.n)]⟩

/-
Plotting guards and summary computations, embedded from
birdman/visualization.py (in the sources).  Matplotlib rendering is out of
scope; what is embedded is the validation and the data that gets plotted.
-/

/-- Mean of a list of rationals (numpy `.mean()`). -/
def qMean (l : List ℚ) : ℚ := l.sum / (l.length : ℚ)

/-- Population variance of a list of rationals; the source plots the
standard deviation, its square root, which is kept squared here so the
embedding stays within exact arithmetic. -/
def qVar (l : List ℚ) : ℚ := qMean (l.map (fun v => (v - qMean l) ^ 2))

/-- Comparison of pairs by first component, the sort key used when plots
order cells by their mean or observed value. -/
def leFst {β : Type} (a b : ℚ × β) : Prop := a.1 ≤ b.1

instance {β : Type} : DecidableRel (@leFst β) :=
  fun a b => inferInstanceAs (Decidable (a.1 ≤ b.1))

instance {β : Type} : IsTotal (ℚ × β) leFst :=
  ⟨fun a b => le_total a.1 b.1⟩

instance {β : Type} : IsTrans (ℚ × β) leFst :=
  ⟨fun _x _y _z h1 h2 => le_trans h1 h2⟩

/-- Linear-interpolation quantile of a list (numpy default), in exact
rational arithmetic. -/
def qQuantile (q : ℚ) (l : List ℚ) : ℚ :=
  let s := List.insertionSort (· ≤ ·) l
  match s.length with
  | 0 => 0
  | n + 1 =>
    let h : ℚ := q * (n : ℚ)
    let lo := s.getD h.floor.toNat 0
    let hi := s.getD (min (h.floor.toNat + 1) n) 0
    lo + (h - (h.floor : ℚ)) * (hi - lo)

/-- The selected posterior parameter handed to `plot_parameter_estimates`:
its coordinate-variable names and its selection — for a coordinate choice,
the per-remaining-cell draws across chain and draw (xarray `.sel` is an
external collaborator and is kept abstract). -/
structure ParamPost where
  coordNames : List String
  sel : List (String × String) → List (List ℚ)

/-- The data plotted by `plot_parameter_estimates`: per-cell means and
(squared) standard deviations, ordered by ascending mean. -/
structure EstPlot where
  means : List ℚ
  stds_sq : List ℚ
deriving DecidableEq

/-- Embedded from birdman/visualization.py, plot_parameter_estimates (lines
30-51): requires an explicit coordinate selection when the parameter has
more than 3 coordinate variables; otherwise plots per-cell means and
standard deviations sorted by ascending mean. -/
def plot_parameter_estimates (p : ParamPost) (coord : List (String × String)) :
    Except String EstPlot :=
  if 3 < p.coordNames.length ∧ coord = [] then
    .error ("Must provide coordinates if plotting multi-dimensional parameter estimates!")
  else
    .ok (let cells := p.sel coord
         let pairs := cells.map (fun c => (qMean c, qVar c))
         let sorted := List.insertionSort leFst pairs
         ⟨sorted.map (fun pr => pr.1), sorted.map (fun pr => pr.2)⟩)

/-- The inference object handed to `plot_posterior_predictive_checks`: its
group names, the raveled observed data, and the per-cell
posterior-predictive draws across chain and draw. -/
structure PPCInput where
  groups : List String
  observed : List ℚ
  ppDraws : List (List ℚ)

/-- The data plotted by `plot_posterior_predictive_checks`: observed values
with the posterior-predictive mean and 95 percent credible bounds, all
sorted by ascending observation, plus the percentage of observations inside
the interval. -/
structure PPCPlot where
  obs : List ℚ
  ppc_mean : List ℚ
  ppc_lower : List ℚ
  ppc_upper : List ℚ
  pct_in_ci : ℚ
deriving DecidableEq

/-- Embedded from birdman/visualization.py,
plot_posterior_predictive_checks (lines 54-117): first validates that the
posterior_predictive group and then the observed_data group are present,
raising ValueError otherwise before any plot is built; then computes the
per-cell mean and 2.5/97.5 percent quantiles, the share of observations
inside the interval, and sorts everything by ascending observation. -/
def plot_posterior_predictive_checks (d : PPCInput) : Except String PPCPlot :=
  if "posterior_predictive" ∉ d.groups then
    .error ("Must include posterior predictive values to perform PPC!")
  else if "observed_data" ∉ d.groups then
    .error ("Must include observed data to perform PPC!")
  else
    .ok (let means := d.ppDraws.map qMean
         let lowers := d.ppDraws.map (qQuantile (25 / 1000))
         let uppers := d.ppDraws.map (qQuantile (975 / 1000))
         let inCI := (d.observed.zip (lowers.zip uppers)).map
           (fun pr => decide (pr.1 < pr.2.2 ∧ pr.2.1 < pr.1))
         let quads := d.observed.zip (means.zip (lowers.zip uppers))
         let sorted := List.insertionSort leFst quads
         ⟨sorted.map (fun t => t.1),
          sorted.map (fun t => t.2.1),
          sorted.map (fun t => t.2.2.1),
          sorted.map (fun t => t.2.2.2),
          ((inCI.count true : ℚ) / (inCI.length : ℚ)) * 100⟩)

/-
Inversion lemmas for the assembler, used by the claims below.
-/

theorem exMapM_ok_mem {α β : Type} {g : α → Except AsmError β} {l : List α}
    {r : List β} (h : exMapM g l = .ok r) :
    ∀ b ∈ r, ∃ a ∈ l, g a = .ok b := by
  induction l generalizing r with
  | nil =>
    simp only [exMapM] at h
    cases h
    intro b hb
    cases hb
  | cons a as ih =>
    simp only [exMapM] at h
    cases hga : g a with
    | error e => rw [hga] at h; cases h
    | ok b0 =>
      rw [hga] at h
      cases hrec : exMapM g as with
      | error e => rw [hrec] at h; cases h
      | ok bs =>
        rw [hrec] at h
        cases h
        intro b hb
        rcases List.mem_cons.mp hb with hb | hb
        · exact ⟨a, List.mem_cons_self a as, hb ▸ hga⟩
        · rcases ih hrec b hb with ⟨a2, ha2, hg2⟩
          exact ⟨a2, List.mem_cons_of_mem a ha2, hg2⟩

theorem exMapM_cons_error {α β : Type} {g : α → Except AsmError β} {a : α}
    (as : List α) {e : AsmError} (h : g a = .error e) :
    exMapM g (a :: as) = .error e := by
  simp [exMapM, h]

theorem splitChains_ok_inv {c : Nat} {p : String} {a r : RawArray}
    (h : splitChains c p a = .ok r) :
    ∃ n rest, a.shape = n :: rest ∧ c ≠ 0 ∧ n % c = 0 ∧
      r = ⟨c :: (n / c) :: rest, a.data⟩ := by
  unfold splitChains at h
  split at h
  · cases h
  · next n rest heq =>
    split at h
    · next hc =>
      cases h
      exact ⟨n, rest, heq, hc.1, hc.2, rfl⟩
    · cases h

theorem tensorALR_ok_inv {r r2 : RawArray} (h : tensorALR r = .ok r2) :
    ∃ c d k rest, r.shape = c :: d :: k :: rest ∧
      r2.shape = c :: d :: (k + 1) :: rest := by
  unfold tensorALR at h
  split at h
  · next c d k rest heq =>
    cases h
    exact ⟨c, d, k, rest, heq, rfl⟩
  · cases h

theorem serialData_ok_inv {fit : Fit} {alr_params : List String} {p : String}
    {ra : RawArray} (h : serialData fit alr_params p = .ok ra) :
    ∃ a, lookupV fit.vars p = some a ∧
      ra.shape.take 2 = [fit.chains, a.shape.headD 0 / fit.chains] := by
  unfold serialData at h
  split at h
  · cases h
  · next a heq =>
    refine ⟨a, heq, ?_⟩
    split at h
    · cases h
    · next r hsp =>
      rcases splitChains_ok_inv hsp with ⟨n, rest, hshape, _, _, hr⟩
      subst hr
      split at h
      · rcases tensorALR_ok_inv h with ⟨c2, d2, k2, rest2, hrs, hr2s⟩
        simp only [List.cons.injEq] at hrs
        rw [hr2s, hshape, ← hrs.1, ← hrs.2.1]
        simp
      · cases h
        rw [hshape]
        simp

theorem buildSerial_ok_inv {fit : Fit} {coords dims : List (String × List String)}
    {alr_params : List String} {p : String} {pr : String × DAr}
    (h : buildSerial fit coords dims alr_params p = .ok pr) :
    ∃ ra, serialData fit alr_params p = .ok ra ∧
      pr = (p, ⟨"chain" :: "draw" :: lookupD dims p [], ra.shape,
        (lookupD dims p []).map (fun s => (s, lookupD coords s [])), ra.data⟩) := by
  unfold buildSerial at h
  split at h
  · cases h
  · next ra hra =>
    cases h
    exact ⟨ra, hra, rfl⟩

theorem buildSample_ok_inv {fit : Fit} {sample_names : List String} {name : String}
    {pr : String × DAr} (h : buildSample fit sample_names name = .ok pr) :
    ∃ ra, serialData fit [] name = .ok ra ∧
      pr = (name, ⟨["chain", "draw", "sample"], ra.shape,
        [("sample", sample_names)], ra.data⟩) := by
  unfold buildSample at h
  split at h
  · cases h
  · next ra hra =>
    cases h
    exact ⟨ra, hra, rfl⟩

theorem optGroup_ok_inv {b : String → Except AsmError (String × DAr)}
    {o : Option String} {g : List (String × DAr)} (h : optGroup b o = .ok g) :
    g = [] ∨ ∃ name x, o = some name ∧ b name = .ok x ∧ g = [x] := by
  cases o with
  | none =>
    left
    simp only [optGroup] at h
    cases h
    rfl
  | some name =>
    simp only [optGroup] at h
    split at h
    · cases h
    · next x hx =>
      cases h
      exact Or.inr ⟨name, x, rfl, hx, rfl⟩

theorem single_fit_ok_inv {fit : Fit} {coords dims : List (String × List String)}
    {params alr_params : List String} {pp ll : Option String}
    {sample_names : List String} {art : InferenceArtifact}
    (h : single_fit_to_inference fit coords dims params alr_params pp ll sample_names
      = .ok art) :
    exMapM (buildSerial fit coords dims alr_params) params = .ok art.posterior ∧
    optGroup (buildSample fit sample_names) pp = .ok art.posterior_predictive ∧
    optGroup (buildSample fit sample_names) ll = .ok art.log_likelihood := by
  unfold single_fit_to_inference at h
  split at h
  · cases h
  · next post hpost =>
    split at h
    · cases h
    · next ppg hppg =>
      split at h
      · cases h
      · next llg hllg =>
        cases h
        exact ⟨hpost, hppg, hllg⟩

theorem buildParallel_ok_inv {fits : List Fit} {coords dims : List (String × List String)}
    {cn : String} {fn : List String} {p : String} {pr : String × DAr}
    (h : buildParallel fits coords dims cn fn p = .ok pr) :
    ∃ ra, stackParam fits (lookupD dims p []) cn p = .ok ra ∧
      pr = (p, ⟨"chain" :: "draw" :: lookupD dims p [], ra.shape,
        (lookupD dims p []).map (fun s =>
          (s, if s = cn then fn else lookupD coords s [])), ra.data⟩) := by
  unfold buildParallel at h
  split at h
  · cases h
  · next ra hra =>
    cases h
    exact ⟨ra, hra, rfl⟩

theorem buildParallelSample_ok_inv {fits : List Fit} {cn : String}
    {fn sn : List String} {name : String} {pr : String × DAr}
    (h : buildParallelSample fits cn fn sn name = .ok pr) :
    ∃ ra, stackParam fits ["sample", cn] cn name = .ok ra ∧
      pr = (name, ⟨"chain" :: "draw" :: ["sample", cn], ra.shape,
        (["sample", cn]).map (fun s =>
          (s, if s = cn then fn else lookupD [("sample", sn)] s [])), ra.data⟩) := by
  unfold buildParallelSample at h
  split at h
  · cases h
  · next ra hra =>
    cases h
    exact ⟨ra, hra, rfl⟩

theorem multiple_fits_ok_inv {fits : List Fit} {params : List String}
    {coords dims : List (String × List String)} {cn : String} {fn : List String}
    {pp ll : Option String} {sample_names : List String} {art : InferenceArtifact}
    (h : multiple_fits_to_inference fits params coords dims cn fn pp ll sample_names
      = .ok art) :
    (∀ p ∈ params, cn ∈ lookupD dims p []) ∧
    exMapM (buildParallel fits coords dims cn fn) params = .ok art.posterior ∧
    optGroup (buildParallelSample fits cn fn sample_names) pp = .ok art.posterior_predictive ∧
    optGroup (buildParallelSample fits cn fn sample_names) ll = .ok art.log_likelihood := by
  unfold multiple_fits_to_inference at h
  split at h
  · next hall =>
    refine ⟨hall, ?_⟩
    split at h
    · cases h
    · split at h
      · split at h
        · cases h
        · next post hpost =>
          split at h
          · cases h
          · next ppg hppg =>
            split at h
            · cases h
            · next llg hllg =>
              cases h
              exact ⟨hpost, hppg, hllg⟩
      · cases h
  · cases h

theorem lookupV_map_override {pdims : List String} {cn : String} {fn : List String}
    (g : String → List String) (h : cn ∈ pdims) :
    lookupV (pdims.map (fun s => (s, if s = cn then fn else g s))) cn = some fn := by
  induction pdims with
  | nil => cases h
  | cons s rest ih =>
    by_cases hs : s = cn
    · simp [lookupV, hs]
    · rcases List.mem_cons.mp h with h1 | h1
      · exact absurd h1.symm hs
      · simp only [List.map_cons, lookupV, if_neg hs]
        exact ih h1

/-- C3: when the concatenation dimension is absent from some listed
parameter's declared dimension list, `multiple_fits_to_inference` fails at
call entry with the ValueError whose message (pinned by
test_parallel_to_inference_wrong_concat) contains "must match" and names
the dims mapping, before producing any artifact. -/
theorem multiple_fits_concat_validation (fits : List Fit) (params : List String)
    (coords dims : List (String × List String)) (cn : String) (fn : List String)
    (pp ll : Option String) (sample_names : List String)
    (h : ∃ p ∈ params, cn ∉ lookupD dims p []) :
    multiple_fits_to_inference fits params coords dims cn fn pp ll sample_names
      = .error (.valueError ("concatenation_name must match dimensions in dims")) := by
  unfold multiple_fits_to_inference
  rw [if_neg]
  rcases h with ⟨p, hp, hn⟩
  exact fun hall => hn (hall p hp)

/-- C3 witness: the test's scenario — concatenation name "mewtwo" absent
from the declared dims of "beta". -/
theorem multiple_fits_concat_validation_witness :
    multiple_fits_to_inference [] ["beta"] [] [("beta", ["covariate", "feature"])]
      "mewtwo" [] none none []
      = .error (.valueError ("concatenation_name must match dimensions in dims")) :=
  multiple_fits_concat_validation [] ["beta"] [] [("beta", ["covariate", "feature"])]
    "mewtwo" [] none none []
    ⟨"beta", by simp, by decide⟩

/-- C4: every array assembled by `single_fit_to_inference` has leading axes
of lengths exactly (chain count, total draws / chain count); and when the
total draw count is not evenly divisible by the chain count the call fails
with a ShapeError. -/
theorem single_fit_reshape_invariant (fit : Fit)
    (coords dims : List (String × List String)) (params alr_params : List String)
    (pp ll : Option String) (sample_names : List String) :
    (∀ art, single_fit_to_inference fit coords dims params alr_params pp ll sample_names
        = .ok art →
      ∀ pr ∈ art.posterior ++ art.posterior_predictive ++ art.log_likelihood,
        ∃ a, lookupV fit.vars pr.1 = some a ∧
          pr.2.shape.take 2 = [fit.chains, a.shape.headD 0 / fit.chains]) ∧
    (∀ p0 rest a n sh, params = p0 :: rest → lookupV fit.vars p0 = some a →
      a.shape = n :: sh → fit.chains ≠ 0 → ¬ fit.chains ∣ n →
      single_fit_to_inference fit coords dims params alr_params pp ll sample_names
        = .error (.shapeError (p0 ++ ": draws not evenly divisible by chains"))) := by
  constructor
  · intro art h pr hpr
    rcases single_fit_ok_inv h with ⟨hpost, hppg, hllg⟩
    have fromSample : ∀ (o : Option String) (g : List (String × DAr)),
        optGroup (buildSample fit sample_names) o = .ok g → pr ∈ g →
        ∃ a, lookupV fit.vars pr.1 = some a ∧
          pr.2.shape.take 2 = [fit.chains, a.shape.headD 0 / fit.chains] := by
      intro o g hg hmem
      rcases optGroup_ok_inv hg with hnil | ⟨name, x, _, hx, hxg⟩
      · subst hnil; cases hmem
      · subst hxg
        rcases List.mem_singleton.mp hmem with rfl
        rcases buildSample_ok_inv hx with ⟨ra, hsd, hxeq⟩
        rcases serialData_ok_inv hsd with ⟨a, hl, htake⟩
        subst hxeq
        exact ⟨a, hl, htake⟩
    rcases List.mem_append.mp hpr with hpr1 | hpr2
    · rcases List.mem_append.mp hpr1 with hpr1 | hpr1
      · rcases exMapM_ok_mem hpost pr hpr1 with ⟨p, _, hb⟩
        rcases buildSerial_ok_inv hb with ⟨ra, hsd, hpre⟩
        rcases serialData_ok_inv hsd with ⟨a, hl, htake⟩
        subst hpre
        exact ⟨a, hl, htake⟩
      · exact fromSample pp art.posterior_predictive hppg hpr1
    · exact fromSample ll art.log_likelihood hllg hpr2
  · intro p0 rest a n sh hparams hl hshape hc0 hdvd
    subst hparams
    have hmod : ¬ (fit.chains ≠ 0 ∧ n % fit.chains = 0) := by
      rintro ⟨_, hm⟩
      exact hdvd (Nat.dvd_of_mod_eq_zero hm)
    have hsplit : splitChains fit.chains p0 a
        = .error (.shapeError (p0 ++ ": draws not evenly divisible by chains")) := by
      simp [splitChains, hshape, hmod]
    have hsd : serialData fit alr_params p0
        = .error (.shapeError (p0 ++ ": draws not evenly divisible by chains")) := by
      simp [serialData, hl, hsplit]
    have hbs : buildSerial fit coords dims alr_params p0
        = .error (.shapeError (p0 ++ ": draws not evenly divisible by chains")) := by
      simp [buildSerial, hsd]
    simp [single_fit_to_inference, exMapM_cons_error rest hbs]

/-- C4 witness: 3 total draws cannot be split over 2 chains. -/
theorem single_fit_reshape_invariant_witness :
    single_fit_to_inference ⟨2, [("beta", ⟨[3], [1, 2, 3]⟩)]⟩ [] [] ["beta"] []
      none none []
      = .error (.shapeError ("beta" ++ ": draws not evenly divisible by chains")) :=
  (single_fit_reshape_invariant ⟨2, [("beta", ⟨[3], [1, 2, 3]⟩)]⟩ [] [] ["beta"] []
      none none []).2
    "beta" [] ⟨[3], [1, 2, 3]⟩ 3 [] rfl (by decide) rfl (by decide) (by decide)

/-- C5: for both assembly entry points, every labeled posterior array's
dimension ordering is exactly (chain, draw, then the parameter's declared
dimensions in dimension-spec order). -/
theorem inference_dims_order (fit : Fit) (fits : List Fit)
    (coords dims : List (String × List String)) (params alr_params : List String)
    (cn : String) (fn : List String) (pp ll : Option String)
    (sample_names : List String) :
    (∀ art, single_fit_to_inference fit coords dims params alr_params pp ll sample_names
        = .ok art →
      ∀ pr ∈ art.posterior, pr.2.dims = "chain" :: "draw" :: lookupD dims pr.1 []) ∧
    (∀ art, multiple_fits_to_inference fits params coords dims cn fn pp ll sample_names
        = .ok art →
      ∀ pr ∈ art.posterior, pr.2.dims = "chain" :: "draw" :: lookupD dims pr.1 []) := by
  constructor
  · intro art h pr hpr
    rcases single_fit_ok_inv h with ⟨hpost, _, _⟩
    rcases exMapM_ok_mem hpost pr hpr with ⟨p, _, hb⟩
    rcases buildSerial_ok_inv hb with ⟨ra, _, hpre⟩
    subst hpre
    rfl
  · intro art h pr hpr
    rcases multiple_fits_ok_inv h with ⟨_, hpost, _, _⟩
    rcases exMapM_ok_mem hpost pr hpr with ⟨p, _, hb⟩
    rcases buildParallel_ok_inv hb with ⟨ra, _, hpre⟩
    subst hpre
    rfl

/-- A one-parameter serial bundle: 2 chains, 2 total draws, one feature. -/
def fitEx : Fit := ⟨2, [("beta", ⟨[2, 1], [1, 2]⟩)]⟩

/-- A one-feature parallel collection: one bundle, 1 chain, 1 draw. -/
def fitsEx : List Fit := [⟨1, [("beta", ⟨[1, 1], [2]⟩)]⟩]

/-- Dimension spec of the examples: beta varies over the feature dim. -/
def dimsEx : List (String × List String) := [("beta", ["feature"])]

/-- Coordinate spec of the examples. -/
def coordsEx : List (String × List String) := [("feature", ["f1"])]

/-- The labeled beta array the serial example assembles to. -/
def darS : DAr := ⟨["chain", "draw", "feature"], [2, 1, 1], [("feature", ["f1"])], [1, 2]⟩

/-- The labeled beta array the parallel example assembles to. -/
def darP : DAr := ⟨["chain", "draw", "feature"], [1, 1, 1], [("feature", ["f1"])], [2]⟩

/-- C5 witness: concrete serial and parallel assemblies both carry dims
(chain, draw, feature). -/
theorem inference_dims_order_witness :
    darS.dims = "chain" :: "draw" :: lookupD dimsEx "beta" [] ∧
    darP.dims = "chain" :: "draw" :: lookupD dimsEx "beta" [] := by
  have h := inference_dims_order fitEx fitsEx coordsEx dimsEx ["beta"] []
    "feature" ["f1"] none none []
  exact ⟨h.1 ⟨[("beta", darS)], [], [], []⟩ (by rfl) ("beta", darS) (by decide),
         h.2 ⟨[("beta", darP)], [], [], []⟩ (by rfl) ("beta", darP) (by decide)⟩

/-- C2: whenever `multiple_fits_to_inference` succeeds, every output array's
coordinate labels along the concatenation (feature) dimension are exactly
the given `feature_names`, in the given order. -/
theorem multiple_fits_feature_order (fits : List Fit) (params : List String)
    (coords dims : List (String × List String)) (cn : String) (fn : List String)
    (pp ll : Option String) (sample_names : List String) (art : InferenceArtifact)
    (h : multiple_fits_to_inference fits params coords dims cn fn pp ll sample_names
      = .ok art) :
    ∀ pr ∈ art.posterior ++ art.posterior_predictive ++ art.log_likelihood,
      lookupV pr.2.coords cn = some fn := by
  rcases multiple_fits_ok_inv h with ⟨hall, hpost, hppg, hllg⟩
  have fromSample : ∀ (o : Option String) (g : List (String × DAr)) (pr : String × DAr),
      optGroup (buildParallelSample fits cn fn sample_names) o = .ok g → pr ∈ g →
      lookupV pr.2.coords cn = some fn := by
    intro o g pr hg hmem
    rcases optGroup_ok_inv hg with hnil | ⟨name, x, _, hx, hxg⟩
    · subst hnil; cases hmem
    · subst hxg
      rcases List.mem_singleton.mp hmem with rfl
      rcases buildParallelSample_ok_inv hx with ⟨ra, _, hxeq⟩
      subst hxeq
      exact lookupV_map_override _ (by simp)
  intro pr hpr
  rcases List.mem_append.mp hpr with hpr1 | hpr2
  · rcases List.mem_append.mp hpr1 with hpr1 | hpr1
    · rcases exMapM_ok_mem hpost pr hpr1 with ⟨p, hp, hb⟩
      rcases buildParallel_ok_inv hb with ⟨ra, _, hpre⟩
      subst hpre
      exact lookupV_map_override _ (hall p hp)
    · exact fromSample pp art.posterior_predictive pr hppg hpr1
  · exact fromSample ll art.log_likelihood pr hllg hpr2

/-- C2 witness: the concrete parallel assembly labels the feature dimension
with the given feature names. -/
theorem multiple_fits_feature_order_witness :
    lookupV darP.coords "feature" = some ["f1"] :=
  multiple_fits_feature_order fitsEx ["beta"] coordsEx dimsEx "feature" ["f1"]
    none none [] ⟨[("beta", darP)], [], [], []⟩ (by rfl) ("beta", darP) (by decide)

/-- C6: querying fitted-parameter outputs (`to_xarray`) before a fit has
completed (fit is None) fails immediately — for both default models — with
the error message indicating the fit has not been run ("Model has not been
fit!", surfaced as a Python ValueError), and produces no output. -/
theorem to_xarray_unfit_error (mnb : NegativeBinomial) (mmn : Multinomial)
    (h1 : mnb.fit = none) (h2 : mmn.fit = none) :
    mnb.to_xarray = .error ("Model has not been fit!") ∧
    mmn.to_xarray = .error ("Model has not been fit!") := by
  constructor
  · simp [NegativeBinomial.to_xarray, h1]
  · simp [Multinomial.to_xarray, h2]

/-- C6 witness: freshly constructed, unfit models. -/
theorem to_xarray_unfit_error_witness :
    NegativeBinomial.to_xarray ⟨none, [], [], 0, 0⟩ = .error ("Model has not been fit!") ∧
    Multinomial.to_xarray ⟨none, [], [], 0, 0⟩ = .error ("Model has not been fit!") :=
  to_xarray_unfit_error ⟨none, [], [], 0, 0⟩ ⟨none, [], [], 0, 0⟩ rfl rfl

/-- C7: the Coordinate Transformer and both assembly entry points are pure
functions of their inputs — equal inputs give equal outputs (and, the
embedding being functional, no caller-supplied data is mutated). -/
theorem core_functions_pure {m f d : Nat}
    (x1 x2 : Fin m → Fin f → Fin d → ℚ) (hx : ∀ i j k, x1 i j k = x2 i j k)
    (fit1 fit2 : Fit) (hfit : fit1 = fit2)
    (cs1 cs2 : List (String × List String)) (hcs : cs1 = cs2)
    (ds1 ds2 : List (String × List String)) (hds : ds1 = ds2)
    (ps1 ps2 : List String) (hps : ps1 = ps2)
    (al1 al2 : List String) (hal : al1 = al2)
    (pp1 pp2 : Option String) (hpp : pp1 = pp2)
    (ll1 ll2 : Option String) (hll : ll1 = ll2)
    (sn1 sn2 : List String) (hsn : sn1 = sn2)
    (fits1 fits2 : List Fit) (hfits : fits1 = fits2)
    (cn1 cn2 : String) (hcn : cn1 = cn2)
    (fn1 fn2 : List String) (hfn : fn1 = fn2) :
    (∀ i j k, convert_beta_coordinates x1 i j k = convert_beta_coordinates x2 i j k) ∧
    single_fit_to_inference fit1 cs1 ds1 ps1 al1 pp1 ll1 sn1
      = single_fit_to_inference fit2 cs2 ds2 ps2 al2 pp2 ll2 sn2 ∧
    multiple_fits_to_inference fits1 ps1 cs1 ds1 cn1 fn1 pp1 ll1 sn1
      = multiple_fits_to_inference fits2 ps2 cs2 ds2 cn2 fn2 pp2 ll2 sn2 := by
  subst hfit hcs hds hps hal hpp hll hsn hfits hcn hfn
  have hx2 : x1 = x2 := funext fun i => funext fun j => funext fun k => hx i j k
  subst hx2
  exact ⟨fun _ _ _ => rfl, rfl, rfl⟩

/-- C7 witness: two calls of the serial assembler on one concrete input
agree. -/
theorem core_functions_pure_witness :
    single_fit_to_inference ⟨0, []⟩ [] [] [] [] none none []
      = single_fit_to_inference ⟨0, []⟩ [] [] [] [] none none [] :=
  (@core_functions_pure 0 0 0 (fun _ _ _ => 0) (fun _ _ _ => 0) (fun _ _ _ => rfl)
    ⟨0, []⟩ ⟨0, []⟩ rfl [] [] rfl [] [] rfl [] [] rfl [] [] rfl none none rfl
    none none rfl [] [] rfl [] [] rfl "x" "x" rfl [] [] rfl).2.1

/-- C8: for every fitted NegativeBinomial model, `to_xarray` yields a
Dataset whose beta variable has dims (covariate, feature, draw) with no
separate chain dimension, and whose draw coordinate is
np.arange(num_iter * chains), i.e. 0 .. num_iter*chains - 1. -/
theorem nb_to_xarray_beta_dims (m : NegativeBinomial) (f : NBFit)
    (h : m.fit = some f) :
    ∃ ds, m.to_xarray = .ok ds ∧
      (∃ dv, lookupV ds.data_vars "beta" = some dv ∧
        dv.1 = ["covariate", "feature", "draw"] ∧ "chain" ∉ dv.1) ∧
      lookupV ds.coords "draw"
        = some ((List.range (m.num_iter * m.chains)).map CoordVal.n) := by
  simp only [NegativeBinomial.to_xarray, h]
  refine ⟨_, rfl, ⟨_, by rfl, rfl, ?_⟩, by rfl⟩
  show "chain" ∉ ["covariate", "feature", "draw"]
  decide

/-- C8 witness: a minimal fitted model with one covariate pair, one
feature, one draw, two iterations and two chains. -/
theorem nb_to_xarray_beta_dims_witness :
    ∃ ds, NegativeBinomial.to_xarray ⟨some ⟨1, 1, 1, [0], [0]⟩, ["c0"], ["f0"], 2, 2⟩
        = .ok ds ∧
      (∃ dv, lookupV ds.data_vars "beta" = some dv ∧
        dv.1 = ["covariate", "feature", "draw"] ∧ "chain" ∉ dv.1) ∧
      lookupV ds.coords "draw" = some ((List.range (2 * 2)).map CoordVal.n) :=
  nb_to_xarray_beta_dims ⟨some ⟨1, 1, 1, [0], [0]⟩, ["c0"], ["f0"], 2, 2⟩
    ⟨1, 1, 1, [0], [0]⟩ rfl

/-- C9: an inference object lacking the posterior_predictive group, or
lacking the observed_data group, makes
`plot_posterior_predictive_checks` raise ValueError mentioning the missing
group, before any plot is produced. -/
theorem ppc_missing_group_error (d : PPCInput)
    (h : "posterior_predictive" ∉ d.groups ∨ "observed_data" ∉ d.groups) :
    ("posterior_predictive" ∉ d.groups ∧
      plot_posterior_predictive_checks d
        = .error ("Must include posterior predictive values to perform PPC!")) ∨
    ("posterior_predictive" ∈ d.groups ∧ "observed_data" ∉ d.groups ∧
      plot_posterior_predictive_checks d
        = .error ("Must include observed data to perform PPC!")) := by
  by_cases h1 : "posterior_predictive" ∈ d.groups
  · rcases h with h | h
    · exact absurd h1 h
    · exact Or.inr ⟨h1, h, by simp [plot_posterior_predictive_checks, h1, h]⟩
  · exact Or.inl ⟨h1, by simp [plot_posterior_predictive_checks, h1]⟩

/-- C9 witness: an inference object with no groups at all. -/
theorem ppc_missing_group_error_witness :
    plot_posterior_predictive_checks ⟨[], [], []⟩
      = .error ("Must include posterior predictive values to perform PPC!") := by
  have h := ppc_missing_group_error ⟨[], [], []⟩ (Or.inl (by simp))
  rcases h with ⟨_, h2⟩ | ⟨h1, _⟩
  · exact h2
  · exact absurd h1 (List.not_mem_nil _)

/-- Zipping the two projections of a list of pairs recovers the list. -/
theorem zipMapFstSnd {α β : Type} (l : List (α × β)) :
    (l.map Prod.fst).zip (l.map Prod.snd) = l := by
  induction l with
  | nil => rfl
  | cons a t ih => simp [ih]

/-- C10: when the selected posterior parameter has more than 3 coordinate
variables and the coord argument is empty, `plot_parameter_estimates`
raises ValueError requiring coordinates; otherwise it plots the per-cell
means and standard deviations ordered by ascending mean (the mean/spread
pairs are a permutation of the computed ones, with means sorted). -/
theorem plot_parameter_estimates_guard (p : ParamPost)
    (coord : List (String × String)) :
    (3 < p.coordNames.length ∧ coord = [] →
      plot_parameter_estimates p coord
        = .error ("Must provide coordinates if plotting multi-dimensional parameter estimates!")) ∧
    (¬(3 < p.coordNames.length ∧ coord = []) →
      ∃ pl, plot_parameter_estimates p coord = .ok pl ∧
        List.Sorted (· ≤ ·) pl.means ∧
        List.Perm (pl.means.zip pl.stds_sq)
          (List.map (fun c => (qMean c, qVar c)) (p.sel coord))) := by
  constructor
  · intro hcond
    simp [plot_parameter_estimates, hcond]
  · intro hcond
    have hok : plot_parameter_estimates p coord = .ok
        ⟨(List.insertionSort leFst
            ((p.sel coord).map (fun c => (qMean c, qVar c)))).map (fun pr => pr.1),
          (List.insertionSort leFst
            ((p.sel coord).map (fun c => (qMean c, qVar c)))).map (fun pr => pr.2)⟩ := by
      simp [plot_parameter_estimates, hcond]
    refine ⟨_, hok, ?_, ?_⟩
    · have hs := List.sorted_insertionSort leFst
        ((p.sel coord).map (fun c => (qMean c, qVar c)))
      exact List.pairwise_map.mpr hs
    · rw [zipMapFstSnd]
      exact List.perm_insertionSort leFst _

/-- C10 witness: a four-coordinate parameter with no coordinate selection
triggers the guard. -/
theorem plot_parameter_estimates_guard_witness :
    plot_parameter_estimates ⟨["a", "b", "c", "d"], fun _ => []⟩ []
      = .error ("Must provide coordinates if plotting multi-dimensional parameter estimates!") :=
  (plot_parameter_estimates_guard ⟨["a", "b", "c", "d"], fun _ => []⟩ []).1
    ⟨by decide, rfl⟩
